import Mathlib

/-!
Formal model of `src/ratelimiting_user.c`, the control-plane daemon of the
ratelimiting XDP stage.  Shared BPF maps are modelled as association lists
(`List (Nat × Int)` for key/value stores, `List Nat` for the key set of the
sliding-window store).  Machine integers are modelled as `Nat`/`Int` with
explicit reduction modulo `2 ^ w` where the C code can overflow.
-/

namespace Ratelimiting

/-! ## Shared key/value stores (BPF maps as association lists) -/

/-- Lookup in a key/value store, mirroring `bpf_map_lookup_elem`. -/
def storeGet (s : List (Nat × Int)) (k : Nat) : Option Int :=
  match s with
  | [] => none
  | (k', v) :: rest => if k' = k then some v else storeGet rest k

/-- Insert-or-replace in a key/value store, mirroring `bpf_map_update_elem`
with flags `0` (`BPF_ANY`). -/
def storeSet (s : List (Nat × Int)) (k : Nat) (v : Int) : List (Nat × Int) :=
  match s with
  | [] => [(k, v)]
  | (k', v') :: rest =>
      if k' = k then (k, v) :: rest else (k', v') :: storeSet rest k v

theorem storeGet_storeSet (s : List (Nat × Int)) (k k' : Nat) (v : Int) :
    storeGet (storeSet s k v) k' = if k = k' then some v else storeGet s k' := by
  induction s with
  | nil =>
      by_cases h : k = k' <;> simp [storeSet, storeGet, h]
  | cons p rest ih =>
      obtain ⟨a, b⟩ := p
      by_cases ha : a = k
      · subst ha
        by_cases h : a = k' <;> simp [storeSet, storeGet, h]
      · by_cases h : a = k'
        · subst h
          have hk : ¬ k = a := fun hh => ha hh.symm
          simp [storeSet, storeGet, ha, hk, ih]
        · simp [storeSet, storeGet, ha, h, ih]

theorem storeGet_storeSet_self (s : List (Nat × Int)) (k : Nat) (v : Int) :
    storeGet (storeSet s k v) k = some v := by
  simp [storeGet_storeSet]

/-! ## u64 arithmetic of the sweep -/

/-- Unsigned 64-bit subtraction `a - b` as the C expression
`curr_time - buffer_time` computes it (both operands `__u64`). -/
def usub64 (a b : Nat) : Nat := (a + 2 ^ 64 - b) % 2 ^ 64

theorem usub64_of_le {a b : Nat} (hba : b ≤ a) (ha : a < 2 ^ 64) :
    usub64 a b = a - b := by
  unfold usub64
  have h1 : a + 2 ^ 64 - b = (a - b) + 2 ^ 64 := by omega
  have h2 : a - b < 2 ^ 64 := by omega
  rw [h1, Nat.add_mod_right, Nat.mod_eq_of_lt h2]

theorem usub64_wrap {a b : Nat} (hab : a < b) (hb : b < 2 ^ 64) :
    usub64 a b = 2 ^ 64 - (b - a) := by
  unfold usub64
  have h1 : a + 2 ^ 64 - b = 2 ^ 64 - (b - a) := by omega
  have h2 : 2 ^ 64 - (b - a) < 2 ^ 64 := by omega
  rw [h1, Nat.mod_eq_of_lt h2]

/-! ## The window store's key cursor

`Modelled from the spec:` the window store's "key following the cursor"
operation (`bpf_map_get_next_key`, provided by the external BPF runtime, not
part of `src/`) is modelled, following §4.3 of the spec ("repeatedly ask the
window store for the key following the cursor", "monotonic cursor traversal"),
as the least key of the store strictly greater than the cursor. -/
def minAbove (c : Nat) : List Nat → Option Nat
  | [] => none
  | k :: rest =>
      match minAbove c rest with
      | none => if c < k then some k else none
      | some m => if c < k ∧ k < m then some k else some m

theorem minAbove_mem {c : Nat} {s : List Nat} {k : Nat}
    (h : minAbove c s = some k) : k ∈ s := by
  induction s with
  | nil => simp [minAbove] at h
  | cons a rest ih =>
      unfold minAbove at h
      cases hm : minAbove c rest with
      | none =>
          rw [hm] at h
          by_cases hc : c < a
          · simp [hc] at h; simp [h]
          · simp [hc] at h
      | some m =>
          rw [hm] at h
          by_cases hc : c < a ∧ a < m
          · simp [hc] at h; simp [h]
          · simp [hc] at h
            right
            exact ih (h ▸ hm)

theorem minAbove_lt {c : Nat} {s : List Nat} {k : Nat}
    (h : minAbove c s = some k) : c < k := by
  induction s with
  | nil => simp [minAbove] at h
  | cons a rest ih =>
      unfold minAbove at h
      cases hm : minAbove c rest with
      | none =>
          rw [hm] at h
          by_cases hc : c < a
          · simp [hc] at h; omega
          · simp [hc] at h
      | some m =>
          rw [hm] at h
          by_cases hc : c < a ∧ a < m
          · simp [hc] at h; omega
          · simp [hc] at h
            exact ih (h ▸ hm)

theorem minAbove_none {c : Nat} {s : List Nat}
    (h : minAbove c s = none) : ∀ x ∈ s, ¬ c < x := by
  induction s with
  | nil => simp
  | cons a rest ih =>
      intro x hx
      unfold minAbove at h
      cases hm : minAbove c rest with
      | none =>
          rw [hm] at h
          by_cases hc : c < a
          · simp [hc] at h
          · simp [hc] at h
            rcases List.mem_cons.mp hx with hxa | hxr
            · subst hxa; exact hc
            · exact ih hm x hxr
      | some m =>
          rw [hm] at h
          by_cases hc : c < a ∧ a < m
          · simp [hc] at h
          · simp [hc] at h

theorem minAbove_min {c : Nat} {s : List Nat} {k : Nat}
    (h : minAbove c s = some k) : ∀ x ∈ s, c < x → k ≤ x := by
  revert h
  induction s generalizing k with
  | nil => intro h; simp [minAbove] at h
  | cons a rest ih =>
      intro h x hx hcx
      unfold minAbove at h
      cases hm : minAbove c rest with
      | none =>
          rw [hm] at h
          by_cases hc : c < a
          · simp [hc] at h
            rcases List.mem_cons.mp hx with hxa | hxr
            · omega
            · exact absurd hcx (minAbove_none hm x hxr)
          · simp [hc] at h
      | some m =>
          rw [hm] at h
          by_cases hc : c < a ∧ a < m
          · simp [hc] at h
            rcases List.mem_cons.mp hx with hxa | hxr
            · omega
            · have := ih hm x hxr hcx
              omega
          · simp [hc] at h
            rcases List.mem_cons.mp hx with hxa | hxr
            · subst hxa
              have hcm := minAbove_lt hm
              omega
            · exact h ▸ ih hm x hxr hcx

/-! ## Termination measure for the sweep loop -/

/-- Number of store keys strictly greater than the cursor. -/
def countGT (c : Nat) (s : List Nat) : Nat := (s.filter (fun x => c < x)).length

/-- Total number of keys the data plane still has scheduled for insertion. -/
def schedLen (sched : List (List Nat)) : Nat := (sched.map List.length).sum

theorem countGT_append (c : Nat) (a b : List Nat) :
    countGT c (a ++ b) = countGT c a + countGT c b := by
  simp [countGT, List.filter_append]

theorem countGT_le_length (c : Nat) (s : List Nat) : countGT c s ≤ s.length := by
  simpa [countGT] using List.length_filter_le (fun x => decide (c < x)) s

theorem countGT_sublist {c : Nat} {s' s : List Nat} (h : List.Sublist s' s) :
    countGT c s' ≤ countGT c s := by
  exact List.Sublist.length_le (List.Sublist.filter _ h)

theorem countGT_mono {c c' : Nat} (hcc : c ≤ c') (s : List Nat) :
    countGT c' s ≤ countGT c s := by
  induction s with
  | nil => simp [countGT]
  | cons a t ih =>
      by_cases h' : c' < a
      · have h : c < a := by omega
        simpa [countGT, List.filter_cons, h, h'] using ih
      · by_cases h : c < a <;>
          simp [countGT, List.filter_cons, h, h'] at ih ⊢ <;> omega

theorem countGT_lt_of_mem {c k : Nat} {s : List Nat}
    (hk : k ∈ s) (hck : c < k) : countGT k s < countGT c s := by
  induction s with
  | nil => simp at hk
  | cons a t ih =>
      rcases List.mem_cons.mp hk with hka | hkt
      · subst hka
        have h1 : ¬ k < k := by omega
        have h2 : countGT k t ≤ countGT c t := countGT_mono (by omega) t
        simp [countGT, List.filter_cons, h1, hck] at h2 ⊢
        omega
      · by_cases ha : k < a
        · have hca : c < a := by omega
          have := ih hkt
          simp [countGT, List.filter_cons, ha, hca] at this ⊢
          omega
        · by_cases hca : c < a <;>
            · have := ih hkt
              simp [countGT, List.filter_cons, ha, hca] at this ⊢
              omega

theorem schedLen_cons_eq (sched : List (List Nat)) :
    schedLen sched = (sched.headD []).length + schedLen sched.tail := by
  cases sched <;> simp [schedLen]

/-! ## The eviction sweep (`delete_stale_entries`) -/

/-- One full run of the sweep loop of `delete_stale_entries`
(`src/ratelimiting_user.c:170-183`), parameterised by the current monotonic
time `curr` and the eviction buffer `buffer` (the constant `buffer_time`
lives in `constants.h`, which is not part of `src/`, so it is kept as a
parameter).  `sched` models keys the external data plane inserts
concurrently: before each loop iteration the head of `sched` is added to the
store.  Returns the final store and the list of keys the cursor visited.

The loop body is literal: ask for the key following the cursor
(`bpf_map_get_next_key`), delete it when it is below
`curr_time - buffer_time` (u64 arithmetic), and advance the cursor to the
returned key whether or not a deletion occurred. -/
def sweepAux (curr buffer : Nat) (sched : List (List Nat)) (store : List Nat)
    (cursor : Nat) : List Nat × List Nat :=
  match h : minAbove cursor (sched.headD [] ++ store) with
  | none => (sched.headD [] ++ store, [])
  | some k =>
      let store2 := if k < usub64 curr buffer
        then (sched.headD [] ++ store).erase k
        else sched.headD [] ++ store
      let r := sweepAux curr buffer sched.tail store2 k
      (r.1, k :: r.2)
termination_by countGT cursor store + schedLen sched
decreasing_by
  have hmem : k ∈ sched.headD [] ++ store := minAbove_mem h
  have hlt : cursor < k := minAbove_lt h
  have h4 : countGT k (sched.headD [] ++ store) < countGT cursor (sched.headD [] ++ store) :=
    countGT_lt_of_mem hmem hlt
  have h5 := countGT_append cursor (sched.headD []) store
  have h6 := countGT_le_length cursor (sched.headD [])
  have h7 := schedLen_cons_eq sched
  split
  · have h3 := countGT_sublist (c := k) (List.erase_sublist k (sched.headD [] ++ store))
    omega
  · omega

/-- The sweep as the daemon runs it: cursor starts at the sentinel key `0`
(`first_key = 0`), with no concurrent data-plane activity. -/
def delete_stale_entries (curr buffer : Nat) (store : List Nat) :
    List Nat × List Nat :=
  sweepAux curr buffer [] store 0

theorem sweepAux_none {curr buffer : Nat} {sched : List (List Nat)}
    {store : List Nat} {cursor : Nat}
    (h : minAbove cursor (sched.headD [] ++ store) = none) :
    sweepAux curr buffer sched store cursor = (sched.headD [] ++ store, []) := by
  unfold sweepAux
  split
  · rfl
  · rename_i k hk
    rw [h] at hk
    exact Option.noConfusion hk

theorem sweepAux_some {curr buffer : Nat} {sched : List (List Nat)}
    {store : List Nat} {cursor k : Nat}
    (h : minAbove cursor (sched.headD [] ++ store) = some k) :
    sweepAux curr buffer sched store cursor =
      ((sweepAux curr buffer sched.tail
          (if k < usub64 curr buffer
            then (sched.headD [] ++ store).erase k
            else sched.headD [] ++ store) k).1,
        k :: (sweepAux curr buffer sched.tail
          (if k < usub64 curr buffer
            then (sched.headD [] ++ store).erase k
            else sched.headD [] ++ store) k).2) := by
  conv =>
    lhs
    unfold sweepAux
  split
  · rename_i hk
    rw [h] at hk
    exact Option.noConfusion hk
  · rename_i k' hk
    rw [h] at hk
    cases hk
    rfl

theorem join_headD_tail (sched : List (List Nat)) :
    sched.headD [] ++ sched.tail.flatten = sched.flatten := by
  cases sched <;> simp

/-- Every key of the final store either was in the store at sweep start or
was inserted by the data plane during the sweep. -/
theorem sweepAux_final_subset (curr buffer : Nat) :
    ∀ (sched : List (List Nat)) (store : List Nat) (cursor x : Nat),
      x ∈ (sweepAux curr buffer sched store cursor).1 →
      x ∈ sched.flatten ++ store := by
  intro sched store cursor
  induction sched, store, cursor using sweepAux.induct curr buffer with
  | case1 sched store cursor hnone =>
      intro x hx
      rw [sweepAux_none hnone] at hx
      rcases List.mem_append.mp hx with h1 | h2
      · have : x ∈ sched.flatten := by
          rw [← join_headD_tail sched]
          exact List.mem_append_left _ h1
        exact List.mem_append_left _ this
      · exact List.mem_append_right _ h2
  | case2 sched store cursor k hsome store2 ih =>
      intro x hx
      rw [sweepAux_some hsome] at hx
      simp only at hx
      have hx2 := ih x hx
      rcases List.mem_append.mp hx2 with h1 | h2
      · refine List.mem_append_left _ ?_
        rw [← join_headD_tail sched]
        exact List.mem_append_right _ h1
      · have h2' : x ∈ (if k < usub64 curr buffer
            then (sched.headD [] ++ store).erase k
            else sched.headD [] ++ store) := h2
        have h3 : x ∈ sched.headD [] ++ store := by
          by_cases hd : k < usub64 curr buffer
          · rw [if_pos hd] at h2'
            exact List.mem_of_mem_erase h2'
          · rw [if_neg hd] at h2'
            exact h2'
        rcases List.mem_append.mp h3 with h4 | h5
        · refine List.mem_append_left _ ?_
          rw [← join_headD_tail sched]
          exact List.mem_append_left _ h4
        · exact List.mem_append_right _ h5

/-- A key at least `curr_time - buffer_time` (u64) is never erased: the
sweep keeps every entry the staleness test does not select. -/
theorem sweepAux_keeps (curr buffer : Nat) :
    ∀ (sched : List (List Nat)) (store : List Nat) (cursor x : Nat),
      x ∈ store → ¬ x < usub64 curr buffer →
      x ∈ (sweepAux curr buffer sched store cursor).1 := by
  intro sched store cursor
  induction sched, store, cursor using sweepAux.induct curr buffer with
  | case1 sched store cursor hnone =>
      intro x hx hfresh
      rw [sweepAux_none hnone]
      exact List.mem_append_right _ hx
  | case2 sched store cursor k hsome store2 ih =>
      intro x hx hfresh
      rw [sweepAux_some hsome]
      simp only
      refine ih x ?_ hfresh
      show x ∈ (if k < usub64 curr buffer
        then (sched.headD [] ++ store).erase k
        else sched.headD [] ++ store)
      have hx1 : x ∈ sched.headD [] ++ store := List.mem_append_right _ hx
      by_cases hd : k < usub64 curr buffer
      · rw [if_pos hd]
        have hxk : x ≠ k := by
          intro hxe
          exact hfresh (hxe ▸ hd)
        exact (List.mem_erase_of_ne hxk).mpr hx1
      · rw [if_neg hd]
        exact hx1

/-- Every key of the start-of-sweep store strictly above the initial cursor
is visited by the traversal, whatever the data plane inserts meanwhile. -/
theorem sweepAux_visits (curr buffer : Nat) :
    ∀ (sched : List (List Nat)) (store : List Nat) (cursor x : Nat),
      x ∈ store → cursor < x →
      x ∈ (sweepAux curr buffer sched store cursor).2 := by
  intro sched store cursor
  induction sched, store, cursor using sweepAux.induct curr buffer with
  | case1 sched store cursor hnone =>
      intro x hx hcx
      exact absurd hcx (minAbove_none hnone x (List.mem_append_right _ hx))
  | case2 sched store cursor k hsome store2 ih =>
      intro x hx hcx
      rw [sweepAux_some hsome]
      simp only
      by_cases hxk : x = k
      · exact hxk ▸ List.mem_cons_self _ _
      · refine List.mem_cons_of_mem _ (ih x ?_ ?_)
        · show x ∈ (if k < usub64 curr buffer
            then (sched.headD [] ++ store).erase k
            else sched.headD [] ++ store)
          have hx1 : x ∈ sched.headD [] ++ store := List.mem_append_right _ hx
          by_cases hd : k < usub64 curr buffer
          · rw [if_pos hd]
            exact (List.mem_erase_of_ne hxk).mpr hx1
          · rw [if_neg hd]
            exact hx1
        · have hkx := minAbove_min hsome x (List.mem_append_right _ hx) hcx
          omega

/-- When the data plane stays quiet (every scheduled insertion batch is
empty), a stale key above the cursor is erased and never reappears. -/
theorem sweepAux_deletes (curr buffer : Nat) :
    ∀ (sched : List (List Nat)) (store : List Nat) (cursor x : Nat),
      sched.flatten = [] → store.Nodup →
      x ∈ store → cursor < x → x < usub64 curr buffer →
      x ∉ (sweepAux curr buffer sched store cursor).1 := by
  intro sched store cursor
  induction sched, store, cursor using sweepAux.induct curr buffer with
  | case1 sched store cursor hnone =>
      intro x _ _ hx hcx _
      exact absurd hcx (minAbove_none hnone x (List.mem_append_right _ hx))
  | case2 sched store cursor k hsome store2 ih =>
      intro x hsched hnd hx hcx hstale
      have hhead : sched.headD [] = [] := by
        cases sched with
        | nil => rfl
        | cons a t =>
            simp only [List.flatten_cons] at hsched
            simp [List.append_eq_nil.mp hsched |>.1]
      have htail : sched.tail.flatten = [] := by
        cases sched with
        | nil => rfl
        | cons a t =>
            simp only [List.flatten_cons] at hsched
            simpa using (List.append_eq_nil.mp hsched).2
      rw [sweepAux_some hsome]
      simp only
      by_cases hxk : x = k
      · subst hxk
        have hdel : (if x < usub64 curr buffer
            then (sched.headD [] ++ store).erase x
            else sched.headD [] ++ store) = (sched.headD [] ++ store).erase x :=
          if_pos hstale
        intro hmem
        have hsub := sweepAux_final_subset curr buffer sched.tail _ x x hmem
        rw [htail] at hsub
        simp only [List.nil_append] at hsub
        rw [hdel, hhead] at hsub
        simp only [List.nil_append] at hsub
        have hnd' : store.Nodup := hnd
        exact absurd ((List.Nodup.mem_erase_iff hnd').mp hsub).1 (by simp)
      · refine ih x htail ?_ ?_ ?_ hstale
        · show (if k < usub64 curr buffer
              then (sched.headD [] ++ store).erase k
              else sched.headD [] ++ store).Nodup
          rw [hhead]
          simp only [List.nil_append]
          by_cases hd : k < usub64 curr buffer
          · rw [if_pos hd]
            exact List.Nodup.erase k hnd
          · rw [if_neg hd]
            exact hnd
        · show x ∈ (if k < usub64 curr buffer
              then (sched.headD [] ++ store).erase k
              else sched.headD [] ++ store)
          have hx1 : x ∈ sched.headD [] ++ store := List.mem_append_right _ hx
          by_cases hd : k < usub64 curr buffer
          · rw [if_pos hd]
            exact (List.mem_erase_of_ne hxk).mpr hx1
          · rw [if_neg hd]
            exact hx1
        · have hkx := minAbove_min hsome x (List.mem_append_right _ hx) hcx
          omega

/-! ## Port-list parsing (`trim_space`, `strtoi`, `update_ports`) -/

/-- C `isspace` in the default locale: space, `\t`, `\n`, vertical tab,
form feed, `\r`. -/
def isSpaceChar (c : Char) : Bool :=
  c = ' ' || c = '\t' || c = '\n' || c.toNat = 11 || c.toNat = 12 || c = '\r'

def isDigitChar (c : Char) : Bool := '0' ≤ c && c ≤ '9'

def digitVal (c : Char) : Nat := c.toNat - '0'.toNat

/-- Mirror of `trim_space` (`src/ratelimiting_user.c:186-200`): skip leading
whitespace, then walk `end` back over trailing whitespace; the guard
`end > str` means the first character after the leading trim is never
removed (after the leading trim it is not whitespace anyway). -/
def trim_space (s : List Char) : List Char :=
  match s.dropWhile isSpaceChar with
  | [] => []
  | c :: rest => c :: (rest.reverse.dropWhile isSpaceChar).reverse

/-- Tokenisation performed by `strsep(&tmp, delim)` on the port list.
`Modelled from the spec:` the delimiter constant `delim` lives in
`constants.h`, which is not part of `src/`; per §4.2 ("split on a
configurable delimiter") and the §8 example `"80, 443 ,8080"` it is taken
to be the single character `,`, on which `strsep` yields one (possibly
empty) token between consecutive separators. -/
def splitComma : List Char → List (List Char)
  | [] => [[]]
  | c :: rest =>
      if c = ',' then [] :: splitComma rest
      else
        match splitComma rest with
        | [] => [[c]]
        | t :: ts => (c :: t) :: ts

/-- Result of `strtol(str, &endptr, 10)` on a NUL-terminated token:
the returned `long`, whether no digits were consumed (`str == endptr`),
the characters remaining at `endptr`, and whether `ERANGE` was set. -/
structure StrtolResult where
  value : Int
  noConv : Bool
  leftover : List Char
  erange : Bool
deriving Repr, DecidableEq

def LONG_MAX : Int := 2 ^ 63 - 1

def LONG_MIN : Int := -(2 ^ 63)

/-- glibc `strtol` with base 10: skip whitespace, read an optional sign and
a digit run, clamp to `[LONG_MIN, LONG_MAX]` with `ERANGE` on overflow. -/
def strtolEmu (s : List Char) : StrtolResult :=
  let s1 := s.dropWhile isSpaceChar
  let negAndBody : Bool × List Char :=
    match s1 with
    | '-' :: r => (true, r)
    | '+' :: r => (false, r)
    | _ => (false, s1)
  let digits := negAndBody.2.takeWhile isDigitChar
  let rest := negAndBody.2.dropWhile isDigitChar
  if digits.isEmpty then
    { value := 0, noConv := true, leftover := s, erange := false }
  else
    let mag : Nat := digits.foldl (fun a c => a * 10 + digitVal c) 0
    let signed : Int := if negAndBody.1 then -(mag : Int) else (mag : Int)
    if signed > LONG_MAX then
      { value := LONG_MAX, noConv := false, leftover := rest, erange := true }
    else if signed < LONG_MIN then
      { value := LONG_MIN, noConv := false, leftover := rest, erange := true }
    else
      { value := signed, noConv := false, leftover := rest, erange := false }

/-- The C cast `(int) long_var`: reduce modulo `2^32` into
`[-2^31, 2^31)`. -/
def intCast32 (v : Int) : Int :=
  let w := v % (2 ^ 32)
  if w ≥ 2 ^ 31 then w - 2 ^ 32 else w

/-- Result of `strtoi` (`src/ratelimiting_user.c:202-213`): the `(int)`
cast of the `strtol` value, and whether the out-of-range warning was
written to `stderr` (`errno == ERANGE || *endptr != '\0' || str == endptr`). -/
structure StrtoiResult where
  value : Int
  warned : Bool
deriving Repr, DecidableEq

def strtoi (s : List Char) : StrtoiResult :=
  let r := strtolEmu s
  { value := intCast32 r.value
    warned := r.erange || !r.leftover.isEmpty || r.noConv }

/-- The C cast `(uint16_t)` of an `int` value. -/
def uint16_cast (v : Int) : Nat := (v % (2 ^ 16)).toNat

/-- Loop body of `update_ports` (`src/ratelimiting_user.c:215-228`) over the
remaining tokens: trim, convert, and unconditionally insert the converted
port with value `pval = 1`; the accumulated second component records the
tokens for which `strtoi` wrote its warning to `stderr`. -/
def update_ports_go (acc : List (Nat × Int) × List (List Char)) :
    List (List Char) → List (Nat × Int) × List (List Char)
  | [] => acc
  | tok :: rest =>
      let t := trim_space tok
      let r := strtoi t
      update_ports_go
        (storeSet acc.1 (uint16_cast r.value) 1,
          if r.warned then acc.2 ++ [t] else acc.2) rest

/-- Mirror of `update_ports`: tokenize the port list on the delimiter and process
every token; returns the updated port-allowlist store and the list of
tokens that produced a parse warning. -/
def update_ports (store : List (Nat × Int)) (ports : List Char) :
    List (Nat × Int) × List (List Char) :=
  update_ports_go (store, []) (splitComma ports)

theorem update_ports_go_warn_mono (toks : List (List Char)) :
    ∀ (acc : List (Nat × Int) × List (List Char)) (w : List Char),
      w ∈ acc.2 → w ∈ (update_ports_go acc toks).2 := by
  induction toks with
  | nil => intro acc w hw; exact hw
  | cons tok rest ih =>
      intro acc w hw
      refine ih _ w ?_
      simp only
      by_cases hwarn : (strtoi (trim_space tok)).warned
      · rw [if_pos hwarn]
        exact List.mem_append_left _ hw
      · rw [if_neg hwarn]
        exact hw

theorem update_ports_go_keeps_one (toks : List (List Char)) :
    ∀ (acc : List (Nat × Int) × List (List Char)) (k : Nat),
      storeGet acc.1 k = some 1 → storeGet (update_ports_go acc toks).1 k = some 1 := by
  induction toks with
  | nil => intro acc k hk; exact hk
  | cons tok rest ih =>
      intro acc k hk
      refine ih _ k ?_
      simp only
      rw [storeGet_storeSet]
      by_cases he : uint16_cast (strtoi (trim_space tok)).value = k
      · rw [if_pos he]
      · rw [if_neg he]; exact hk

/-- Every token of the list ends up inserted (with value 1) at the key its
numeric conversion produces, malformed or not. -/
theorem update_ports_go_inserts (toks : List (List Char)) :
    ∀ (acc : List (Nat × Int) × List (List Char)) (tok : List Char),
      tok ∈ toks →
      storeGet (update_ports_go acc toks).1
        (uint16_cast (strtoi (trim_space tok)).value) = some 1 := by
  induction toks with
  | nil => intro acc tok h; simp at h
  | cons t rest ih =>
      intro acc tok htok
      rcases List.mem_cons.mp htok with h1 | h2
      · subst h1
        refine update_ports_go_keeps_one rest _ _ ?_
        simp only
        exact storeGet_storeSet_self _ _ _
      · exact ih _ tok h2

/-- A token that makes `strtoi` warn still gets recorded in the warning
list. -/
theorem update_ports_go_warns (toks : List (List Char)) :
    ∀ (acc : List (Nat × Int) × List (List Char)) (tok : List Char),
      tok ∈ toks → (strtoi (trim_space tok)).warned = true →
      trim_space tok ∈ (update_ports_go acc toks).2 := by
  induction toks with
  | nil => intro acc tok h; simp at h
  | cons t rest ih =>
      intro acc tok htok hwarn
      rcases List.mem_cons.mp htok with h1 | h2
      · subst h1
        refine update_ports_go_warn_mono rest _ _ ?_
        simp only [hwarn, if_pos]
        exact List.mem_append_right _ (List.mem_singleton_self _)
      · exact ih _ tok h2 hwarn

/-- Reducing an `(int)`-cast value modulo `2^16` is the same as reducing
the original `long` value, since `2^16` divides `2^32`. -/
theorem intCast32_emod_uint16 (v : Int) :
    (intCast32 v) % (2 ^ 16) = v % (2 ^ 16) := by
  unfold intCast32
  simp only [show ((2 : Int) ^ 32) = 4294967296 by norm_num,
    show ((2 : Int) ^ 31) = 2147483648 by norm_num,
    show ((2 : Int) ^ 16) = 65536 by norm_num]
  split <;> omega

/-! ## Startup (`main`, `src/ratelimiting_user.c:230-374`)

The fallible external calls of the setup path (`setrlimit`,
`load_bpf_file`, `bpf_obj_get`, `bpf_map_update_elem`, `bpf_obj_pin`) and
the handles the loader produced are collected in `SetupEnv`; the contents
of the shared stores are threaded as `World`.  A fatal setup error is the
`Except.error` holding the value `main` returns (or passes to `exit`). -/

/-- Outcomes of the external calls made during setup, and the handles
obtained from the loaded BPF object. -/
structure SetupEnv where
  /-- Whether `setrlimit(RLIMIT_MEMLOCK, ...)` succeeded. -/
  setrlimitOk : Bool
  /-- Whether `load_bpf_file(bpf_obj_file)` returned 0. -/
  loadOk : Bool
  /-- Value of `prog_fd[0]`; `0` means no program fd. -/
  progFd0 : Nat
  /-- Result of `bpf_obj_get(prev_prog_map)`; negative means not found. -/
  prevMapFd : Int
  /-- Whether `bpf_map_update_elem(prev_prog_map_fd, &pkey, &prog_fd[0], 0)`
  returned 0. -/
  chainUpdateOk : Bool
  /-- Result of `bpf_obj_get(xdp_rl_ingress_next_prog)`; negative means not found. -/
  nextMapFd : Int
  /-- Whether `bpf_obj_pin(map_fd[5], xdp_rl_ingress_next_prog)` returned 0. -/
  pinOk : Bool
  /-- Value of `map_fd[0]` (`rl_config_map`); `0` means missing. -/
  mapFd0 : Nat
  /-- writing the rate into `rl_config_map` returned 0. -/
  configUpdateOk : Bool
  /-- Value of `map_fd[2]` (`rl_recv_count_map`); `0` means missing. -/
  mapFd2 : Nat
  /-- writing 0 into `rl_recv_count_map` returned 0. -/
  recvUpdateOk : Bool
  /-- Value of `map_fd[3]` (`rl_drop_count_map`); `0` means missing. -/
  mapFd3 : Nat
  /-- writing 0 into `rl_drop_count_map` returned 0. -/
  dropUpdateOk : Bool
  /-- the `--rate` argument as parsed by `strtoi`. -/
  rate : Int
  /-- the `--ports` argument (empty if not supplied). -/
  ports : List Char
deriving Repr, DecidableEq

/-- Contents of the shared stores this process writes during setup. -/
structure World where
  /-- the previous stage's program-chaining store (key 0 holds the fd of
  the next program in the chain). -/
  prevStore : List (Nat × Int)
  /-- Contents of `rl_config_map`. -/
  configStore : List (Nat × Int)
  /-- Contents of `rl_recv_count_map`. -/
  recvStore : List (Nat × Int)
  /-- Contents of `rl_drop_count_map`. -/
  dropStore : List (Nat × Int)
  /-- Contents of `rl_ports_map`. -/
  portsStore : List (Nat × Int)
deriving Repr, DecidableEq

/-- The chaining step (`src/ratelimiting_user.c:299-312`): resolve the
previous stage's map; write this stage's `prog_fd[0]` at key `pkey = 0`;
both failures call `exit(EXIT_FAILURE)`. -/
def chain_into_prev (env : SetupEnv) (w : World) : Except Int World :=
  if env.prevMapFd < 0 then .error 1
  else if env.chainUpdateOk then
    .ok { w with prevStore := storeSet w.prevStore 0 (Int.ofNat env.progFd0) }
  else .error 1

/-- The store-initialisation phase of `main`
(`src/ratelimiting_user.c:314-361`): publish the own linkage store if
needed, verify the required store handles, write the rate and the two
zeroed counters, and process the port list.  `.error c` is the value
`main` returns (missing handles yield `return -1`, failed writes
`return 1`). -/
def setupStores (env : SetupEnv) (w1 : World) : Except Int World :=
  if env.nextMapFd < 0 && !env.pinOk then .error 1
  else if env.mapFd0 = 0 then .error (-1)
  else if !env.configUpdateOk then .error 1
  else
    let w2 := { w1 with configStore := storeSet w1.configStore 0 env.rate }
    if env.mapFd2 = 0 then .error (-1)
    else if !env.recvUpdateOk then .error 1
    else
      let w3 := { w2 with recvStore := storeSet w2.recvStore 0 0 }
      if env.mapFd3 = 0 then .error (-1)
      else if !env.dropUpdateOk then .error 1
      else
        let w4 := { w3 with dropStore := storeSet w3.dropStore 0 0 }
        if !env.ports.isEmpty then
          .ok { w4 with portsStore := (update_ports w4.portsStore env.ports).1 }
        else .ok w4

/-- The setup path of `main` after CLI parsing
(`src/ratelimiting_user.c:281-366`), up to entering the steady-state sweep
loop.  `.error c` is the value `main` returns (or passes to `exit`) on the
corresponding fatal setup error, in the order the code checks them. -/
def mainSetup (env : SetupEnv) (w : World) : Except Int World :=
  if !env.setrlimitOk then .error 1
  else if !env.loadOk then .error 1
  else if env.progFd0 = 0 then .error 1
  else
    match chain_into_prev env w with
    | .error c => .error c
    | .ok w1 => setupStores env w1

/-- The process exit status the OS reports for a value returned from
`main` (low 8 bits). -/
def exitStatus (c : Int) : Nat := (c % 256).toNat

/-! ## Teardown (`signal_handler`, `src/ratelimiting_user.c:112-148`) -/

/-- Outcomes of the external calls made during signal-driven teardown. -/
structure TeardownEnv where
  /-- the signal number delivered. -/
  signalNum : Nat
  /-- Result of `bpf_obj_get(prev_prog_map)` during teardown; positive means found. -/
  prevMapFd : Int
  /-- Whether `bpf_map_delete_elem(map_fd, &key)` returned 0. -/
  deleteOk : Bool
  /-- Whether `remove(xdp_rl_ingress_next_prog)` succeeded. -/
  removeOk : Bool
  /-- the log sink `info` is open (`info != NULL`). -/
  infoOpen : Bool
deriving Repr, DecidableEq

/-- Mirror of `xdp_unlink_bpf_chain` (`src/ratelimiting_user.c:112-131`): delete this
stage's entry from the previous stage's chain store and remove the pinned
linkage file; every failure is only logged.  Returns the `ret` value and
the log lines written. -/
def xdp_unlink_bpf_chain (env : TeardownEnv) : Int × List String :=
  let retAndLogs :=
    if 0 < env.prevMapFd then
      if env.deleteOk then ((0 : Int), ([] : List String))
      else (1, ["xdp chain remove program failed"])
    else (0, ["Previous program map is not found"])
  if env.removeOk then retAndLogs
  else (retAndLogs.1,
    retAndLogs.2 ++ ["Failed to remove map file - xdp_rl_ingress_next_prog"])

/-- Mirror of `signal_handler` (`src/ratelimiting_user.c:135-148`): log the signal,
unlink from the chain, close the six store handles (results ignored),
close the log sink, and `exit(EXIT_SUCCESS)`.  Returns the exit status and
the log lines. -/
def signal_handler (env : TeardownEnv) : Nat × List String :=
  let unlinked := xdp_unlink_bpf_chain env
  (0, ["Received signal"] ++ unlinked.2)

/-! ## Claims -/

/-- C1 (amended): provided the sweep's monotonic time `curr` is at least
`buffer` — so that the unsigned subtraction `curr_time - buffer_time` does
not wrap — every window entry whose timestamp `t` satisfies
`curr - t ≤ buffer` is still present after the sweep; no such sweep removes
an entry before its buffer time has elapsed. -/
theorem C1_fresh_entries_survive (curr buffer : Nat) (store : List Nat)
    (t : Nat) (hbc : buffer ≤ curr) (hcurr : curr < 2 ^ 64)
    (ht : t ∈ store) (hfresh : curr ≤ t + buffer) :
    t ∈ (delete_stale_entries curr buffer store).1 := by
  refine sweepAux_keeps curr buffer [] store 0 t ht ?_
  rw [usub64_of_le hbc hcurr]
  omega

/-- C1 witness: at `curr = 100`, `buffer = 30`, the entry `80` (age 20)
survives the sweep. -/
theorem C1_fresh_entries_survive_witness :
    30 ≤ 100 ∧ 100 < 2 ^ 64 ∧ 80 ∈ [80] ∧ 100 ≤ 80 + 30 ∧
    80 ∈ (delete_stale_entries 100 30 [80]).1 :=
  ⟨by decide, by norm_num, by decide, by decide,
    C1_fresh_entries_survive 100 30 [80] 80 (by decide) (by norm_num)
      (by decide) (by decide)⟩

/-- C1 counterexample: at `curr = 5`, `buffer = 10`, the entry `3` has age
`5 - 3 = 2 ≤ 10`, yet the wrapped threshold `2^64 - 5` makes the sweep
delete it — refuting the claim that no sweep ever removes an entry before
its buffer time has elapsed. -/
theorem C1_counterexample :
    5 - 3 ≤ 10 ∧ 3 ∉ (delete_stale_entries 5 10 [3]).1 := by
  refine ⟨by decide, ?_⟩
  unfold delete_stale_entries
  rw [sweepAux_some (k := 3) (by decide)]
  rw [sweepAux_none (by decide)]
  decide

/-- C2 (amended): a window entry inserted with nonzero timestamp `t` is
deleted by a sweep at monotonic time `curr` with `t + buffer < curr`
(`curr` a u64 value); staleness is judged by comparing the entry's
timestamp key against `curr_time - buffer_time`, and the cursor advances to
the returned key whether or not a deletion occurred (see `sweepAux`).  The
amendment excludes `t = 0`: the cursor starts at the sentinel key `0`, so a
hypothetical entry with timestamp `0` is never visited. -/
theorem C2_stale_entries_deleted (curr buffer : Nat) (store : List Nat)
    (t : Nat) (hnd : store.Nodup) (ht : t ∈ store) (ht0 : 0 < t)
    (hlate : t + buffer < curr) (hcurr : curr < 2 ^ 64) :
    t ∉ (delete_stale_entries curr buffer store).1 := by
  refine sweepAux_deletes curr buffer [] store 0 t rfl hnd ht ht0 ?_
  rw [usub64_of_le (by omega) hcurr]
  omega

/-- C2 witness: at `curr = 100`, `buffer = 10`, the entry `50` is deleted. -/
theorem C2_stale_entries_deleted_witness :
    [50].Nodup ∧ 50 ∈ [50] ∧ 0 < 50 ∧ 50 + 10 < 100 ∧ 100 < 2 ^ 64 ∧
    50 ∉ (delete_stale_entries 100 10 [50]).1 :=
  ⟨by decide, by decide, by decide, by decide, by norm_num,
    C2_stale_entries_deleted 100 10 [50] 50 (by decide) (by decide)
      (by decide) (by decide) (by norm_num)⟩

/-- C2 counterexample: an entry with timestamp `0` at sweep time
`curr = 20` with `buffer = 10` satisfies `curr > 0 + buffer` but survives
the sweep, because `bpf_map_get_next_key` starting from `first_key = 0`
never returns the key `0` itself. -/
theorem C2_counterexample :
    0 + 10 < 20 ∧ 0 ∈ (delete_stale_entries 20 10 [0]).1 := by
  refine ⟨by decide, ?_⟩
  unfold delete_stale_entries
  rw [sweepAux_none (by decide)]
  decide

/-- C3 (amended): the sweep terminates (it is a total function, defined by
well-founded recursion on the number of keys above the cursor plus the
number of keys still to be inserted), and it visits every nonzero key
present at sweep start, whatever finite batches of keys the data plane
inserts concurrently between loop iterations.  The amendment excludes a key
equal to `0`: the traversal cursor starts at the sentinel `0`, so an entry
with key `0` is never visited. -/
theorem C3_sweep_visits_all_initial_keys (curr buffer : Nat)
    (sched : List (List Nat)) (store : List Nat) (x : Nat)
    (hx : x ∈ store) (hx0 : 0 < x) :
    x ∈ (sweepAux curr buffer sched store 0).2 :=
  sweepAux_visits curr buffer sched store 0 x hx hx0

/-- C3 witness: the start key `5` is visited even though the data plane
inserts key `7` during the sweep. -/
theorem C3_sweep_visits_all_initial_keys_witness :
    5 ∈ [5] ∧ 0 < 5 ∧ 5 ∈ (sweepAux 100 10 [[7]] [5] 0).2 :=
  ⟨by decide, by decide,
    C3_sweep_visits_all_initial_keys 100 10 [[7]] [5] 5 (by decide) (by decide)⟩

/-- C3 counterexample: a store holding the single key `0` at sweep start
has `N = 1` keys, but the sweep visits none of them: `minAbove 0` skips the
sentinel value. -/
theorem C3_counterexample :
    0 ∈ [0] ∧ 0 ∉ (delete_stale_entries 100 10 [0]).2 := by
  refine ⟨by decide, ?_⟩
  unfold delete_stale_entries
  rw [sweepAux_none (by decide)]
  decide

/-- C9 (amended): when a sweep runs at a monotonic time `curr` strictly
smaller than `buffer`, the u64 subtraction wraps to
`2^64 - (buffer - curr)` — a value near `2^64` — and the sweep deletes
every entry whose nonzero key is at most `curr`, i.e. every entry actually
inserted in the past, regardless of its age.  The amendment excludes keys
`≥ 2^64 - (buffer - curr)` (timestamps that could only arise centuries
after boot survive the wrapped comparison) and the never-visited key `0`. -/
theorem C9_wraparound_deletes_everything (curr buffer : Nat)
    (store : List Nat) (k : Nat) (hcb : curr < buffer) (hb : buffer < 2 ^ 64)
    (hnd : store.Nodup) (hk : k ∈ store) (hk0 : 0 < k) (hkc : k ≤ curr) :
    usub64 curr buffer = 2 ^ 64 - (buffer - curr) ∧
    k ∉ (delete_stale_entries curr buffer store).1 := by
  have hw := usub64_wrap hcb hb
  refine ⟨hw, sweepAux_deletes curr buffer [] store 0 k rfl hnd hk hk0 ?_⟩
  rw [hw]
  omega

/-- C9 witness: a sweep at `curr = 5` with `buffer = 10` deletes the
fresh entry `3` (age 2). -/
theorem C9_wraparound_deletes_everything_witness :
    5 < 10 ∧ 10 < 2 ^ 64 ∧ [3].Nodup ∧ 3 ∈ [3] ∧ 0 < 3 ∧ 3 ≤ 5 ∧
    (usub64 5 10 = 2 ^ 64 - (10 - 5) ∧ 3 ∉ (delete_stale_entries 5 10 [3]).1) :=
  ⟨by decide, by norm_num, by decide, by decide, by decide, by decide,
    C9_wraparound_deletes_everything 5 10 [3] 3 (by decide) (by norm_num)
      (by decide) (by decide) (by decide) (by decide)⟩

/-- C9 counterexample: at `curr = 5`, `buffer = 10`, the store holding the
keys `0` and `2^64 - 1` keeps both — the key `0` is never visited and the
key `2^64 - 1` is not below the wrapped threshold `2^64 - 5` — refuting the
claim that such a sweep deletes every entry then present. -/
theorem C9_counterexample :
    5 < 10 ∧
    0 ∈ (delete_stale_entries 5 10 [0, 18446744073709551615]).1 ∧
    18446744073709551615 ∈ (delete_stale_entries 5 10 [0, 18446744073709551615]).1 := by
  refine ⟨by decide, ?_⟩
  unfold delete_stale_entries
  rw [sweepAux_some (k := 18446744073709551615) (by decide)]
  rw [sweepAux_none (by decide)]
  refine ⟨?_, ?_⟩ <;> decide

/-- C4: after the chaining step succeeds, key `0` of the previous stage's
linkage store holds exactly this stage's program handle `prog_fd[0]`. -/
theorem C4_chain_link_updates_prev (env : SetupEnv) (w w' : World)
    (h : chain_into_prev env w = .ok w') :
    storeGet w'.prevStore 0 = some (Int.ofNat env.progFd0) := by
  unfold chain_into_prev at h
  by_cases h1 : env.prevMapFd < 0
  · rw [if_pos h1] at h
    cases h
  · rw [if_neg h1] at h
    by_cases h2 : env.chainUpdateOk
    · rw [if_pos h2] at h
      cases h
      exact storeGet_storeSet_self _ _ _
    · simp only [h2] at h
      cases h

/-- A world with all five stores empty, as the freshly loaded BPF object
provides them. -/
def emptyWorld : World := ⟨[], [], [], [], []⟩

/-- A setup environment in which every external call succeeds:
`prog_fd[0] = 7`, previous-stage map fd `3`, no pinned next-stage map yet,
all stores present, rate `100`, no port list. -/
def envAllOk : SetupEnv :=
  ⟨true, true, 7, 3, true, -1, true, 1, true, 1, true, 1, true, 100, []⟩

/-- The world after `envAllOk`'s chaining step. -/
def chainedWorld : World := ⟨[(0, 7)], [], [], [], []⟩

/-- C4 witness: with `prog_fd[0] = 7` the chaining step writes `7` at key
`0` of the previous stage's store. -/
theorem C4_chain_link_updates_prev_witness :
    chain_into_prev envAllOk emptyWorld = .ok chainedWorld ∧
    storeGet chainedWorld.prevStore 0 = some (Int.ofNat envAllOk.progFd0) :=
  ⟨rfl, C4_chain_link_updates_prev envAllOk emptyWorld chainedWorld rfl⟩

theorem chain_into_prev_error_one (env : SetupEnv) (w : World) (c : Int)
    (h : chain_into_prev env w = .error c) : c = 1 := by
  unfold chain_into_prev at h
  split_ifs at h <;> simp only [Except.error.injEq] at h <;> omega

theorem setupStores_error_values (env : SetupEnv) (w1 : World) (c : Int)
    (h : setupStores env w1 = .error c) : c = 1 ∨ c = -1 := by
  unfold setupStores at h
  dsimp only at h
  split_ifs at h <;>
    first
      | (injection h with h2; left; omega)
      | (injection h with h2; right; omega)

/-- C5 (amended): every fatal setup error exits before the steady state
with a nonzero status, but not always status 1: load failure, missing
entry point, unreachable previous linkage store, chain-link or pin
failure, resource-limit raise failure and store-write failures produce
status 1, while a missing required store handle (`rl_config_map`,
`rl_recv_count_map`, `rl_drop_count_map`) makes `main` return `-1`, which
the operating system reports as exit status 255. -/
theorem C5_fatal_setup_nonzero_exit (env : SetupEnv) (w : World) (c : Int)
    (h : mainSetup env w = .error c) :
    exitStatus c = 1 ∨ exitStatus c = 255 := by
  have h1 : c = 1 ∨ c = -1 := by
    unfold mainSetup at h
    by_cases b1 : (!env.setrlimitOk) = true
    · rw [if_pos b1] at h
      injection h with h2
      left; omega
    · rw [if_neg b1] at h
      by_cases b2 : (!env.loadOk) = true
      · rw [if_pos b2] at h
        injection h with h2
        left; omega
      · rw [if_neg b2] at h
        by_cases b3 : env.progFd0 = 0
        · rw [if_pos b3] at h
          injection h with h2
          left; omega
        · rw [if_neg b3] at h
          cases hc : chain_into_prev env w with
          | error ce =>
              rw [hc] at h
              injection h with h2
              have h3 := chain_into_prev_error_one env w ce hc
              left; omega
          | ok w1 =>
              rw [hc] at h
              have h4 : setupStores env w1 = .error c := h
              exact setupStores_error_values env w1 c h4
  rcases h1 with h1 | h1 <;> subst h1
  · left; decide
  · right; decide

/-- An otherwise healthy setup environment in which `load_bpf_file`
fails. -/
def envLoadFail : SetupEnv :=
  ⟨true, false, 7, 3, true, -1, true, 1, true, 1, true, 1, true, 100, []⟩

/-- C5 witness: a data-plane artifact load failure exits with status 1. -/
theorem C5_fatal_setup_nonzero_exit_witness :
    mainSetup envLoadFail emptyWorld = .error 1 ∧
    (exitStatus 1 = 1 ∨ exitStatus 1 = 255) :=
  ⟨rfl, C5_fatal_setup_nonzero_exit envLoadFail emptyWorld 1 rfl⟩

/-- An otherwise healthy setup environment in which `rl_config_map` is
missing (`map_fd[0] = 0`). -/
def envNoConfigMap : SetupEnv :=
  ⟨true, true, 7, 3, true, -1, true, 0, true, 1, true, 1, true, 100, []⟩

/-- C5 counterexample: a missing required store handle (`rl_config_map`)
makes `main` return `-1` — observed process exit status 255, not the
claimed status exactly 1. -/
theorem C5_counterexample :
    mainSetup envNoConfigMap emptyWorld = .error (-1) ∧
    exitStatus (-1) = 255 := ⟨rfl, rfl⟩

/-- C6: every malformed port token (non-numeric, out of `long` range, or
with trailing non-digit characters — exactly the tokens for which `strtoi`
writes its warning to `stderr`) is recorded as warned, yet its numeric
conversion result is still inserted into the port-allowlist with flag 1,
and the remaining tokens are still processed (the insertions of every
other token also land, by `C6`/`C10`'s shared lemma
`update_ports_go_inserts`). -/
theorem C6_malformed_token_warned_but_inserted (ports : List Char)
    (store : List (Nat × Int)) (tok : List Char)
    (htok : tok ∈ splitComma ports)
    (hbad : (strtoi (trim_space tok)).warned = true) :
    trim_space tok ∈ (update_ports store ports).2 ∧
    storeGet (update_ports store ports).1
      (uint16_cast (strtoi (trim_space tok)).value) = some 1 :=
  ⟨update_ports_go_warns _ _ _ htok hbad,
    update_ports_go_inserts _ _ _ htok⟩

/-- C6 witness: in the port list `"80,ab"` the token `"ab"` is malformed;
it is warned about and key `0` (its conversion result) is inserted with
flag 1. -/
theorem C6_malformed_token_warned_but_inserted_witness :
    ('a' :: 'b' :: []) ∈ splitComma ('8' :: '0' :: ',' :: 'a' :: 'b' :: []) ∧
    (strtoi (trim_space ('a' :: 'b' :: []))).warned = true ∧
    (trim_space ('a' :: 'b' :: []) ∈
        (update_ports [] ('8' :: '0' :: ',' :: 'a' :: 'b' :: [])).2 ∧
      storeGet (update_ports [] ('8' :: '0' :: ',' :: 'a' :: 'b' :: [])).1
        (uint16_cast (strtoi (trim_space ('a' :: 'b' :: []))).value) = some 1) :=
  ⟨by decide, by decide,
    C6_malformed_token_warned_but_inserted ('8' :: '0' :: ',' :: 'a' :: 'b' :: [])
      [] ('a' :: 'b' :: []) (by decide) (by decide)⟩

/-- C7: parsing the port list `"80, 443 ,8080"` into an empty allow-list
store yields exactly the entries 80, 443 and 8080, each with flag 1, and
nothing else (and no parse warnings). -/
theorem C7_example_port_list_exact :
    (update_ports [] ('8' :: '0' :: ',' :: ' ' :: '4' :: '4' :: '3' :: ' '
        :: ',' :: '8' :: '0' :: '8' :: '0' :: [])).1
      = [(80, 1), (443, 1), (8080, 1)] := by decide

/-- C8: on a termination signal during steady state, teardown exits with
status 0 whatever the outcomes of unlinking from the previous stage's
chain store, removing the pinned linkage file, closing the store handles
(whose results the code ignores) and closing the log sink; a failed chain
deletion and a failed pinned-file removal are only logged. -/
theorem C8_teardown_always_exits_zero (env : TeardownEnv) :
    (signal_handler env).1 = 0 ∧
    (env.deleteOk = false → 0 < env.prevMapFd →
      "xdp chain remove program failed" ∈ (signal_handler env).2) ∧
    (env.removeOk = false →
      "Failed to remove map file - xdp_rl_ingress_next_prog" ∈
        (signal_handler env).2) := by
  refine ⟨rfl, ?_, ?_⟩
  · intro hd hfd
    simp only [signal_handler, xdp_unlink_bpf_chain, hd, if_pos hfd]
    by_cases hr : env.removeOk <;> simp [hr]
  · intro hr
    simp only [signal_handler, xdp_unlink_bpf_chain, hr]
    simp

/-- C8 witness: with every cleanup step failing (chain deletion fails,
pinned-file removal fails), the exit status is still 0 and both failures
are logged. -/
theorem C8_teardown_always_exits_zero_witness :
    (signal_handler ⟨2, 3, false, false, true⟩).1 = 0 ∧
    "xdp chain remove program failed" ∈ (signal_handler ⟨2, 3, false, false, true⟩).2 ∧
    "Failed to remove map file - xdp_rl_ingress_next_prog" ∈
      (signal_handler ⟨2, 3, false, false, true⟩).2 :=
  ⟨(C8_teardown_always_exits_zero ⟨2, 3, false, false, true⟩).1,
    (C8_teardown_always_exits_zero ⟨2, 3, false, false, true⟩).2.1 rfl (by decide),
    (C8_teardown_always_exits_zero ⟨2, 3, false, false, true⟩).2.2 rfl⟩

/-- C10: a port token whose parsed numeric value (the `long` returned by
`strtol`, clamped at `LONG_MAX` on overflow) exceeds 65535 is not
rejected: `update_ports` inserts its value reduced modulo `2^16` — its low
16 bits, via the `(int)` and `(uint16_t)` casts — as an allow-list key
with flag 1. -/
theorem C10_oversized_port_wraps_mod_65536 (ports : List Char)
    (store : List (Nat × Int)) (tok : List Char)
    (htok : tok ∈ splitComma ports)
    (hbig : 65535 < (strtolEmu (trim_space tok)).value) :
    storeGet (update_ports store ports).1
      (((strtolEmu (trim_space tok)).value % 2 ^ 16).toNat) = some 1 := by
  have h := update_ports_go_inserts (splitComma ports) (store, []) tok htok
  have hkey : uint16_cast (strtoi (trim_space tok)).value
      = ((strtolEmu (trim_space tok)).value % 2 ^ 16).toNat := by
    unfold uint16_cast strtoi
    simp only
    rw [intCast32_emod_uint16]
  rw [← hkey]
  exact h

/-- C10 witness: the token `"70000"` parses to 70000 > 65535 and the key
`70000 % 2^16 = 4464` is inserted with flag 1. -/
theorem C10_oversized_port_wraps_mod_65536_witness :
    ('7' :: '0' :: '0' :: '0' :: '0' :: []) ∈
        splitComma ('7' :: '0' :: '0' :: '0' :: '0' :: []) ∧
    65535 < (strtolEmu (trim_space ('7' :: '0' :: '0' :: '0' :: '0' :: []))).value ∧
    storeGet (update_ports [] ('7' :: '0' :: '0' :: '0' :: '0' :: [])).1
      (((strtolEmu (trim_space ('7' :: '0' :: '0' :: '0' :: '0' :: []))).value
        % 2 ^ 16).toNat) = some 1 :=
  ⟨by decide, by decide,
    C10_oversized_port_wraps_mod_65536 ('7' :: '0' :: '0' :: '0' :: '0' :: [])
      [] ('7' :: '0' :: '0' :: '0' :: '0' :: []) (by decide) (by decide)⟩

end Ratelimiting
